import Mathlib

/-!
Verification of the poker and blackjack game logic of the `linera-game`
repository.  The definitions below are shallow embeddings of the TypeScript
source: the poker table component (`PokerGame`, with `startNewHand`,
`handleAction`, `botAction`, `advanceStage`, `determineWinner`,
`evaluateHand`) and the blackjack component (`BlackjackGame`, with
`calculateHandValue`, `playDealer`, `moveToNextPlayer`, `startNewGame`,
`calculateResults`).  React `useState` setters are modelled by functional
record updates on an explicit state record; all right-hand sides of a single
handler read from the handler's entry state, matching the snapshot semantics
of the hooks.  JavaScript numbers are modelled as `Int` (poker chips) and
`Rat` (blackjack chips, where a 2.5x multiplier occurs); card ranks are `Nat`
(2..14, 14 = ace).  `Array.pop` takes the last element of the deck list.
-/

/-- Card suit, as in the `Card` interface of both game components. -/
inductive Suit
  | hearts
  | diamonds
  | clubs
  | spades
deriving DecidableEq, Repr

/-- A playing card: `rank` is 2..14 (14 = Ace) and a suit. -/
structure Card where
  rank : Nat
  suit : Suit
deriving DecidableEq, Repr

/-- Model of `deck.pop()`: removes and returns the last element of the deck
array.  On an empty deck the source would yield `undefined`; we return a junk
card there, and theorems that deal cards assume the deck is long enough. -/
def popCard (deck : List Card) : Card × List Card :=
  (deck.getLastD ⟨0, Suit.hearts⟩, deck.dropLast)

/-- The `rankNames` record: display name of a rank. -/
def rankName (r : Nat) : String :=
  if r = 10 then "10" else if r = 11 then "J" else if r = 12 then "Q"
  else if r = 13 then "K" else if r = 14 then "A"
  else if 2 ≤ r ∧ r ≤ 9 then toString r else ""

/-- The `suitSymbols` record. -/
def suitSymbol : Suit → String
  | Suit.hearts => "♥"
  | Suit.diamonds => "♦"
  | Suit.clubs => "♣"
  | Suit.spades => "♠"

/-- `${rankNames[c.rank]}${suitSymbols[c.suit]}`. -/
def cardText (c : Card) : String :=
  rankName c.rank ++ suitSymbol c.suit

/-- `cards.map(c => ...).join(' ')`. -/
def cardsText (cards : List Card) : String :=
  String.intercalate " " (cards.map cardText)

namespace Poker

/-- Poker street, the `PokerStage` union type. -/
inductive PokerStage
  | preflop
  | flop
  | turn
  | river
  | showdown
deriving DecidableEq, Repr

/-- Poker action, the `Action` union type. -/
inductive Action
  | fold
  | check
  | call
  | raise
  | allin
deriving DecidableEq, Repr

/-- The local poker game state: the `useState` variables of the `PokerGame`
component that the game logic reads and writes, plus the mode flag and the
on-chain game id used by the fire-and-forget submission. -/
structure PokerState where
  deck : List Card
  playerHand : List Card
  botHand : List Card
  communityCards : List Card
  stage : PokerStage
  pot : Int
  playerChips : Int
  botChips : Int
  currentBet : Int
  playerBet : Int
  botBet : Int
  isPlayerTurn : Bool
  gameOver : Option (String × String)
  showCards : Bool
  actionLog : List String
  creatingGame : Bool
  modeBot : Bool
  onchainGameId : Option String
deriving DecidableEq, Repr

/-- Number of cards in `cards` having rank `r` (the `rankCounts` record). -/
def rankCountIn (cards : List Card) (r : Nat) : Nat :=
  (cards.filter (fun c => c.rank = r)).length

/-- Number of cards in `cards` having suit `st` (the `suitCounts` record). -/
def suitCountIn (cards : List Card) (st : Suit) : Nat :=
  (cards.filter (fun c => c.suit = st)).length

/-- The ranks occurring exactly `n` times, in ascending order: this is
`Object.entries(rankCounts).filter(([_, c]) => c === n).map(Number)`, whose
numeric keys JavaScript enumerates in ascending order. -/
def ranksWithCount (cards : List Card) (n : Nat) : List Nat :=
  (List.range 15).filter (fun r => rankCountIn cards r = n)

/-- `pairs` in `evaluateHand`: ranks with exactly two cards. -/
def pokerPairs (cards : List Card) : List Nat := ranksWithCount cards 2

/-- `trips` in `evaluateHand`: ranks with exactly three cards. -/
def pokerTrips (cards : List Card) : List Nat := ranksWithCount cards 3

/-- `quads` in `evaluateHand`: ranks with exactly four cards. -/
def pokerQuads (cards : List Card) : List Nat := ranksWithCount cards 4

/-- `isFlush`: some suit occurs at least five times. -/
def isFlush (cards : List Card) : Bool :=
  5 ≤ suitCountIn cards Suit.hearts ∨ 5 ≤ suitCountIn cards Suit.diamonds ∨
    5 ≤ suitCountIn cards Suit.clubs ∨ 5 ≤ suitCountIn cards Suit.spades

/-- The distinct ranks of `cards` in descending order
(`[...new Set(ranks)].sort((a, b) => b - a)`). -/
def uniqueRanksDesc (cards : List Card) : List Nat :=
  (List.range 15).reverse.filter (fun r => 0 < rankCountIn cards r)

/-- The straight scan of `evaluateHand`: for each window of five entries of
the descending unique-rank list, test `uniqueRanks[i] - uniqueRanks[i+4] === 4`. -/
def hasStraightWindow : List Nat → Bool
  | [] => false
  | a :: rest =>
    (match rest with
     | _ :: _ :: _ :: e :: _ => a - e = 4
     | _ => false) || hasStraightWindow rest

/-- `isStraight` in `evaluateHand`. -/
def pokerHasStraight (cards : List Card) : Bool :=
  hasStraightWindow (uniqueRanksDesc cards)

/-- `Math.max(...ranks)`: the maximum rank of the hand (0 on the empty hand,
which the component never produces). -/
def maxRank (cards : List Card) : Nat :=
  (cards.map (fun c => c.rank)).foldr max 0

/-- The simplified hand evaluator `evaluateHand` of the poker component:
scores a 7-card hand as a category base (800 down to 0) plus a tie-break
addend. -/
def evaluateHand (cards : List Card) : Nat :=
  if pokerHasStraight cards && isFlush cards then 800 + maxRank cards
  else if !(pokerQuads cards).isEmpty then 700 + (pokerQuads cards).headD 0
  else if !(pokerTrips cards).isEmpty && !(pokerPairs cards).isEmpty then
    600 + (pokerTrips cards).headD 0
  else if isFlush cards then 500 + maxRank cards
  else if pokerHasStraight cards then 400 + maxRank cards
  else if !(pokerTrips cards).isEmpty then 300 + (pokerTrips cards).headD 0
  else if 2 ≤ (pokerPairs cards).length then 200 + (pokerPairs cards).foldr max 0
  else if (pokerPairs cards).length = 1 then 100 + (pokerPairs cards).headD 0
  else maxRank cards

/-- The category index implicitly assigned by `evaluateHand`'s branch chain:
8 for its straight-flush test down to 0 for high card.  `evaluateHand` equals
`100 * codeCategory + addend`. -/
def codeCategory (cards : List Card) : Nat :=
  if pokerHasStraight cards && isFlush cards then 8
  else if !(pokerQuads cards).isEmpty then 7
  else if !(pokerTrips cards).isEmpty && !(pokerPairs cards).isEmpty then 6
  else if isFlush cards then 5
  else if pokerHasStraight cards then 4
  else if !(pokerTrips cards).isEmpty then 3
  else if 2 ≤ (pokerPairs cards).length then 2
  else if (pokerPairs cards).length = 1 then 1
  else 0

/-- What the handler does after its local switch: nothing further, advance the
street (`advanceStage`), or hand the turn to the bot (`botAction`). -/
inductive Next
  | done
  | advance
  | bot
deriving DecidableEq, Repr

/-- The `endGame` helper: records the winner and reason.  The on-chain result
recording it triggers in bot mode is a fire-and-forget remote call that
touches no local game state. -/
def endGame (s : PokerState) (winner reason : String) : PokerState :=
  { s with gameOver := some (winner, reason) }

/-- JavaScript `amount || raiseAmount`: the fallback is used when `amount` is
absent or zero (falsy). -/
def jsOrAmount (amount : Option Int) (fallback : Int) : Int :=
  match amount with
  | some a => if a = 0 then fallback else a
  | none => fallback

/-- Tail of `handleAction` after the switch: clear the player-turn flag, then
advance the street when the action was check/call and the snapshot values of
`playerBet` and `botBet` agree (the comparison reads the render-time snapshot
`snap`, not the freshly written state); otherwise it is the bot's turn. -/
def afterPlayerAction (snap s : PokerState) (a : Action) : PokerState × Next :=
  let s1 := { s with isPlayerTurn := false }
  if (a = Action.check ∨ a = Action.call) ∧ snap.playerBet = snap.botBet then
    (s1, Next.advance)
  else (s1, Next.bot)

/-- The local part of `handleAction`: guard, then the action switch.  The
illegal-check and insufficient-chips-raise branches return before any state
write (the toast shown there is UI-only). -/
def handleAction (s : PokerState) (a : Action) (amount : Option Int)
    (raiseAmount : Int) : PokerState × Next :=
  if ¬s.isPlayerTurn ∨ s.gameOver.isSome ∨ s.creatingGame then (s, Next.done)
  else
    match a with
    | Action.fold =>
        (endGame { s with botChips := s.botChips + s.pot,
                          actionLog := s.actionLog ++ ["Player folds"] }
          "Bot" "Player folded", Next.done)
    | Action.check =>
        if s.currentBet > s.playerBet then (s, Next.done)
        else
          afterPlayerAction s
            { s with actionLog := s.actionLog ++ ["Player checks"] } Action.check
    | Action.call =>
        if s.currentBet - s.playerBet > s.playerChips then
          afterPlayerAction s
            { s with pot := s.pot + s.playerChips,
                     playerBet := s.playerBet + s.playerChips,
                     playerChips := 0,
                     actionLog := s.actionLog ++
                       ["Player calls all-in: $" ++ toString s.playerChips] }
            Action.call
        else
          afterPlayerAction s
            { s with pot := s.pot + (s.currentBet - s.playerBet),
                     playerBet := s.currentBet,
                     playerChips := s.playerChips - (s.currentBet - s.playerBet),
                     actionLog := s.actionLog ++
                       ["Player calls: $" ++ toString (s.currentBet - s.playerBet)] }
            Action.call
    | Action.raise =>
        if s.currentBet - s.playerBet + jsOrAmount amount raiseAmount > s.playerChips
        then (s, Next.done)
        else
          afterPlayerAction s
            { s with pot := s.pot + (s.currentBet - s.playerBet +
                       jsOrAmount amount raiseAmount),
                     currentBet := s.currentBet + jsOrAmount amount raiseAmount,
                     playerBet := s.currentBet + jsOrAmount amount raiseAmount,
                     playerChips := s.playerChips - (s.currentBet - s.playerBet +
                       jsOrAmount amount raiseAmount),
                     actionLog := s.actionLog ++
                       ["Player raises to $" ++
                         toString (s.currentBet + jsOrAmount amount raiseAmount)] }
            Action.raise
    | Action.allin =>
        afterPlayerAction s
          { s with pot := s.pot + s.playerChips,
                   currentBet := if s.playerBet + s.playerChips > s.currentBet then
                       s.playerBet + s.playerChips
                     else s.currentBet,
                   playerBet := s.playerBet + s.playerChips,
                   playerChips := 0,
                   actionLog := s.actionLog ++
                     ["Player goes all-in: $" ++ toString s.playerChips] }
          Action.allin

/-- Console line of the `.then` handler of `GameAPI.pokerAction`. -/
def pokerSubmitSuccessLog : String := "Poker action stored on chain:"

/-- Console line of the `.catch` handler of `GameAPI.pokerAction`: the handler
only logs; it performs no state write. -/
def pokerSubmitFailureLog : String := "Failed to store action on chain:"

/-- The full `handleAction` including the fire-and-forget on-chain submission:
after the guard, when an on-chain game id exists and the mode is bot, the
action is submitted remotely and the eventual settlement of that promise only
appends a console line (`submitOk` says whether the promise resolved); the
local switch runs unconditionally. -/
def handleActionSubmit (s : PokerState) (a : Action) (amount : Option Int)
    (raiseAmount : Int) (submitOk : Bool) (console : List String) :
    (PokerState × Next) × List String :=
  if ¬s.isPlayerTurn ∨ s.gameOver.isSome ∨ s.creatingGame then
    ((s, Next.done), console)
  else if s.onchainGameId.isSome ∧ s.modeBot then
    (handleAction s a amount raiseAmount,
     console ++ [if submitOk then pokerSubmitSuccessLog else pokerSubmitFailureLog])
  else (handleAction s a amount raiseAmount, console)

/-- The five accepted reply strings of `botAction`'s validator. -/
def validActionStrings : List String := ["fold", "check", "call", "raise", "allin"]

/-- Map an accepted reply string to the corresponding action. -/
def actionOfString (t : String) : Action :=
  if t = "fold" then Action.fold
  else if t = "check" then Action.check
  else if t = "call" then Action.call
  else if t = "raise" then Action.raise
  else Action.allin

/-- JavaScript whitespace test for `String.prototype.trim` (the whitespace
characters occurring in practice). -/
def isJsSpace (c : Char) : Bool := c = ' ' ∨ c = '\t' ∨ c = '\n' ∨ c = '\r'

/-- JavaScript `.trim().toLowerCase()`: strip whitespace from both ends, then
lower-case each character. -/
def jsTrimLower (t : String) : String :=
  String.mk ((((t.data.dropWhile isJsSpace).reverse.dropWhile isJsSpace).reverse).map
    Char.toLower)

/-- Reply normalization of `botAction`:
`data.candidates?.[0]?...?.text?.trim().toLowerCase() || 'call'` — a missing
field or an empty trimmed reply falls back to `"call"`. -/
def parseBotReply (reply : Option String) : String :=
  match reply with
  | none => "call"
  | some t => if jsTrimLower t = "" then "call" else jsTrimLower t

/-- The validation step of `botAction`: keep a recognized reply, otherwise
replace it by `call` when there is a bet to match and `check` otherwise. -/
def botValidated (a0 : String) (currentBet botBet : Int) : String :=
  if validActionStrings.contains a0 then a0
  else if currentBet > botBet then "call" else "check"

/-- The coercion step of `botAction`: a `check` while a bet is pending
becomes a `call`. -/
def botCheckCoerced (a1 : String) (currentBet botBet : Int) : String :=
  if a1 = "check" ∧ currentBet > botBet then "call" else a1

/-- The bot's decision from the suggestion-service reply: normalize, validate
with the fixed call/check replacement, then coerce an unpayable check. -/
def botDecision (reply : Option String) (currentBet botBet : Int) : Action :=
  actionOfString (botCheckCoerced (botValidated (parseBotReply reply) currentBet botBet)
    currentBet botBet)

/-- Tail of `botAction` after its switch: advance the street when the snapshot
`playerBet` equals the snapshot `currentBet` and the action was check/call,
otherwise give the turn back to the player. -/
def afterBotAction (snap s : PokerState) (a : Action) : PokerState × Next :=
  if snap.playerBet = snap.currentBet ∧ (a = Action.check ∨ a = Action.call) then
    (s, Next.advance)
  else ({ s with isPlayerTurn := true }, Next.done)

/-- The action switch of `botAction`, executing the (validated) bot action. -/
def botExec (s : PokerState) (a : Action) : PokerState × Next :=
  match a with
  | Action.fold =>
      (endGame { s with playerChips := s.playerChips + s.pot,
                        actionLog := s.actionLog ++ ["Bot folds"] }
        "Player" "Bot folded", Next.done)
  | Action.check =>
      afterBotAction s { s with actionLog := s.actionLog ++ ["Bot checks"] }
        Action.check
  | Action.call =>
      if s.currentBet - s.botBet ≥ s.botChips then
        afterBotAction s
          { s with pot := s.pot + s.botChips,
                   botBet := s.botBet + s.botChips,
                   botChips := 0,
                   actionLog := s.actionLog ++
                     ["Bot calls all-in: $" ++ toString s.botChips] }
          Action.call
      else
        afterBotAction s
          { s with pot := s.pot + (s.currentBet - s.botBet),
                   botBet := s.currentBet,
                   botChips := s.botChips - (s.currentBet - s.botBet),
                   actionLog := s.actionLog ++
                     ["Bot calls: $" ++ toString (s.currentBet - s.botBet)] }
          Action.call
  | Action.raise =>
      afterBotAction s
        { s with pot := s.pot + (s.currentBet - s.botBet + min s.botChips 50),
                 currentBet := s.currentBet + min s.botChips 50,
                 botBet := s.currentBet + min s.botChips 50,
                 botChips := s.botChips - (s.currentBet - s.botBet + min s.botChips 50),
                 actionLog := s.actionLog ++
                   ["Bot raises to $" ++ toString (s.currentBet + min s.botChips 50)] }
        Action.raise
  | Action.allin =>
      afterBotAction s
        { s with pot := s.pot + s.botChips,
                 currentBet := if s.botBet + s.botChips > s.currentBet then
                     s.botBet + s.botChips
                   else s.currentBet,
                 botBet := s.botBet + s.botChips,
                 botChips := 0,
                 actionLog := s.actionLog ++
                   ["Bot goes all-in: $" ++ toString s.botChips] }
        Action.allin

/-- The `catch` branch of `botAction` (suggestion fetch/parsing threw): the
bot makes a deck-capped call — `toCall = min(currentBet - botBet, botChips)` —
and the turn returns to the player; no error is raised to the game state. -/
def botErrorFallback (s : PokerState) : PokerState :=
  { s with pot := s.pot + min (s.currentBet - s.botBet) s.botChips,
           botBet := s.currentBet,
           botChips := s.botChips - min (s.currentBet - s.botBet) s.botChips,
           isPlayerTurn := true,
           actionLog := s.actionLog ++
             ["Bot calls: $" ++ toString (min (s.currentBet - s.botBet) s.botChips)] }

/-- The `startNewHand` handler: deal two cards each from the supplied shuffled
deck (`createDeck()` is a uniformly shuffled 52-card deck, passed here as a
parameter), post the blinds — the pot is *set* to 30, the small and big blind
are deducted from the stacks — and reset the street state. -/
def startNewHand (s : PokerState) (newDeck : List Card) : PokerState :=
  { s with deck := (popCard (popCard (popCard (popCard newDeck).2).2).2).2,
           playerHand := [(popCard newDeck).1, (popCard (popCard newDeck).2).1],
           botHand := [(popCard (popCard (popCard newDeck).2).2).1,
                       (popCard (popCard (popCard (popCard newDeck).2).2).2).1],
           communityCards := [],
           stage := PokerStage.preflop,
           pot := 30,
           currentBet := 20,
           playerBet := 10,
           botBet := 20,
           playerChips := s.playerChips - 10,
           botChips := s.botChips - 20,
           isPlayerTurn := true,
           showCards := false,
           actionLog := ["New hand started", "Player posts small blind: $10",
                         "Bot posts big blind: $20"],
           gameOver := none }

/-- The showdown settlement `determineWinner`: evaluate both 7-card hands,
award the whole pot to the strictly higher score, and on equal scores credit
each player `Math.floor(pot / 2)`; the `pot` field itself is left untouched. -/
def determineWinner (s : PokerState) : PokerState :=
  if evaluateHand (s.playerHand ++ s.communityCards) >
      evaluateHand (s.botHand ++ s.communityCards) then
    endGame { s with playerChips := s.playerChips + s.pot,
                     actionLog := s.actionLog ++ ["--- Showdown ---",
                       "Player hand: " ++ cardsText s.playerHand,
                       "Bot hand: " ++ cardsText s.botHand,
                       "Player wins $" ++ toString s.pot ++ "!"] }
      "Player" "Better hand"
  else if evaluateHand (s.botHand ++ s.communityCards) >
      evaluateHand (s.playerHand ++ s.communityCards) then
    endGame { s with botChips := s.botChips + s.pot,
                     actionLog := s.actionLog ++ ["--- Showdown ---",
                       "Player hand: " ++ cardsText s.playerHand,
                       "Bot hand: " ++ cardsText s.botHand,
                       "Bot wins $" ++ toString s.pot ++ "!"] }
      "Bot" "Better hand"
  else
    endGame { s with playerChips := s.playerChips + Int.fdiv s.pot 2,
                     botChips := s.botChips + Int.fdiv s.pot 2,
                     actionLog := s.actionLog ++ ["--- Showdown ---",
                       "Player hand: " ++ cardsText s.playerHand,
                       "Bot hand: " ++ cardsText s.botHand,
                       "Split pot!"] }
      "Tie" "Equal hands"

/-- The linear street order of the component: each `advanceStage` call moves
one step forward, and there is no transition out of showdown. -/
def nextStage : PokerStage → PokerStage
  | PokerStage.preflop => PokerStage.flop
  | PokerStage.flop => PokerStage.turn
  | PokerStage.turn => PokerStage.river
  | PokerStage.river => PokerStage.showdown
  | PokerStage.showdown => PokerStage.showdown

/-- The `advanceStage` handler: reset the three per-street bet counters, then
deal the flop (three cards), turn or river (one card) from the deck, or — from
the river — enter showdown, reveal the cards and settle via `determineWinner`
without dealing.  At showdown stage no branch fires and only the bet reset and
turn flag take effect. -/
def advanceStage (s : PokerState) : PokerState :=
  match s.stage with
  | PokerStage.preflop =>
      { s with playerBet := 0, botBet := 0, currentBet := 0,
               communityCards := [(popCard s.deck).1,
                                  (popCard (popCard s.deck).2).1,
                                  (popCard (popCard (popCard s.deck).2).2).1],
               stage := PokerStage.flop,
               deck := (popCard (popCard (popCard s.deck).2).2).2,
               isPlayerTurn := true,
               actionLog := s.actionLog ++
                 ["Flop: " ++ cardsText [(popCard s.deck).1,
                    (popCard (popCard s.deck).2).1,
                    (popCard (popCard (popCard s.deck).2).2).1]] }
  | PokerStage.flop =>
      { s with playerBet := 0, botBet := 0, currentBet := 0,
               communityCards := s.communityCards ++ [(popCard s.deck).1],
               stage := PokerStage.turn,
               deck := (popCard s.deck).2,
               isPlayerTurn := true,
               actionLog := s.actionLog ++ ["Turn: " ++ cardText (popCard s.deck).1] }
  | PokerStage.turn =>
      { s with playerBet := 0, botBet := 0, currentBet := 0,
               communityCards := s.communityCards ++ [(popCard s.deck).1],
               stage := PokerStage.river,
               deck := (popCard s.deck).2,
               isPlayerTurn := true,
               actionLog := s.actionLog ++ ["River: " ++ cardText (popCard s.deck).1] }
  | PokerStage.river =>
      determineWinner
        { s with playerBet := 0, botBet := 0, currentBet := 0,
                 stage := PokerStage.showdown,
                 showCards := true }
  | PokerStage.showdown =>
      { s with playerBet := 0, botBet := 0, currentBet := 0,
               isPlayerTurn := true }

/-- The conserved quantity of a poker hand: both stacks plus the pot. -/
def chipSum (s : PokerState) : Int :=
  s.playerChips + s.botChips + s.pot

end Poker

namespace Blackjack

/-- `getCardValue` of the blackjack component: face cards count 10, an ace
counts 11 initially, other ranks count themselves. -/
def getCardValue (c : Card) : Nat :=
  if 11 ≤ c.rank ∧ c.rank ≤ 13 then 10
  else if c.rank = 14 then 11
  else c.rank

/-- The number of aces in a hand (the `aces` counter of `calculateHandValue`). -/
def countAces (hand : List Card) : Nat :=
  (hand.filter (fun c => c.rank = 14)).length

/-- The initial accumulated value of `calculateHandValue`, every ace at 11. -/
def baseValue (hand : List Card) : Nat :=
  (hand.map getCardValue).foldr (fun a b => a + b) 0

/-- The reduction loop of `calculateHandValue`:
`while (value > 21 && aces > 0) { value -= 10; aces-- }`.  Returns the final
value together with the number of aces still counted as 11. -/
def reduceAces (v : Nat) : Nat → Nat × Nat
  | 0 => (v, 0)
  | a + 1 => if 21 < v then reduceAces (v - 10) a else (v, a + 1)

/-- Result record of `calculateHandValue`. -/
structure HandValue where
  value : Nat
  soft : Bool
deriving DecidableEq, Repr

/-- `calculateHandValue`: sum the card values with aces at 11, then reduce
aces from 11 to 1 one at a time while the total exceeds 21; the hand is soft
while an ace still counts as 11 and the total is at most 21. -/
def calculateHandValue (hand : List Card) : HandValue :=
  { value := (reduceAces (baseValue hand) (countAces hand)).1,
    soft := decide (0 < (reduceAces (baseValue hand) (countAces hand)).2 ∧
                    (reduceAces (baseValue hand) (countAces hand)).1 ≤ 21) }

/-- Natural-blackjack test used by `startNewGame` and `calculateResults`:
exactly two cards valuing 21. -/
def isNaturalBlackjack (hand : List Card) : Bool :=
  hand.length = 2 ∧ (calculateHandValue hand).value = 21

/-- `moveToNextPlayer`: seats -1 (human), 0..2 (bots), 3 (dealer); the dealer
seat is entered only once the index has passed the last bot. -/
def moveToNextPlayer (currentPlayerIndex : Int) : Int :=
  if currentPlayerIndex < 2 then currentPlayerIndex + 1 else 3

/-- The dealer draw loop of `playDealer`:
`while (calculateHandValue(newDealerHand).value < 17) { newDealerHand.push(newDeck.pop()) }`,
with explicit fuel (the loop can only consume deck cards). -/
def playDealerDraw : Nat → List Card → List Card → List Card × List Card
  | 0, hand, deckRem => (hand, deckRem)
  | fuel + 1, hand, deckRem =>
    if (calculateHandValue hand).value < 17 then
      playDealerDraw fuel (hand ++ [(popCard deckRem).1]) (popCard deckRem).2
    else (hand, deckRem)

/-- `playDealer`'s drawing phase on a given dealer hand and deck. -/
def playDealer (hand deckRem : List Card) : List Card × List Card :=
  playDealerDraw deckRem.length hand deckRem

/-- Chip effect of `startNewGame` on the human player for a given deal: the
bet is deducted, and when the two dealt cards value 21 the hand is settled
immediately — push against a dealer 21, otherwise `bet * 2.5` is credited —
before any hit/stand turn. -/
def dealSettleChips (chips bet : ℚ) (pHand dHand : List Card) : ℚ :=
  if (calculateHandValue pHand).value = 21 then
    if (calculateHandValue dHand).value = 21 then chips - bet + bet
    else chips - bet + bet * (5 / 2)
  else chips - bet

/-- Seat index set by `startNewGame`: `-1` (human acts first) normally, `0`
when the human was dealt a natural, skipping the human's hit/stand turn. -/
def startIndex (pHand : List Card) : Int :=
  if (calculateHandValue pHand).value = 21 then 0 else -1

/-- Chip effect of the human branch of `calculateResults`, given the final
player and dealer hands: bust loses the (already deducted) bet, a two-card 21
against a non-21 dealer credits `bet + Math.floor(bet * 2.5)`, a win credits
`bet * 2`, a push returns the bet, a loss credits nothing. -/
def resultsChips (chips bet : ℚ) (pHand dHand : List Card) : ℚ :=
  if 21 < (calculateHandValue pHand).value then chips
  else if (calculateHandValue pHand).value = 21 ∧ pHand.length = 2 ∧
      (calculateHandValue dHand).value ≠ 21 then
    chips + bet + (⌊bet * (5 / 2)⌋ : ℚ)
  else if 21 < (calculateHandValue dHand).value ∨
      (calculateHandValue dHand).value < (calculateHandValue pHand).value then
    chips + bet * 2
  else if (calculateHandValue pHand).value < (calculateHandValue dHand).value then
    chips
  else chips + bet

end Blackjack

namespace PokerSpec

/-- Whether a card with rank `r` and suit `st` is in the hand. -/
def hasRankSuit (cards : List Card) (r : Nat) (st : Suit) : Bool :=
  cards.any (fun c => c.rank = r && c.suit = st)

/-- Whether some card of rank `r` is in the hand. -/
def hasRank (cards : List Card) (r : Nat) : Bool :=
  cards.any (fun c => c.rank = r)

/-- The five ranks of a standard straight topped by `high` (ace plays low in
the 5-high wheel). -/
def straightRanks (high : Nat) : List Nat :=
  if high = 5 then [14, 2, 3, 4, 5]
  else [high - 4, high - 3, high - 2, high - 1, high]

/-- Spec-side definition, following the spec's standard category ranking: the
hand contains a straight flush. -/
def specHasStraightFlush (cards : List Card) : Bool :=
  [Suit.hearts, Suit.diamonds, Suit.clubs, Suit.spades].any (fun st =>
    (List.range 15).any (fun h =>
      decide (5 ≤ h) && (straightRanks h).all (fun r => hasRankSuit cards r st)))

/-- Spec-side: the hand contains four of a kind. -/
def specHasQuads (cards : List Card) : Bool :=
  (List.range 15).any (fun r => decide (4 ≤ Poker.rankCountIn cards r))

/-- Spec-side: the hand contains a full house (three of one rank and at least
a pair of a different rank). -/
def specHasFullHouse (cards : List Card) : Bool :=
  (List.range 15).any (fun r1 =>
    (List.range 15).any (fun r2 =>
      decide (r1 ≠ r2) && decide (3 ≤ Poker.rankCountIn cards r1) &&
        decide (2 ≤ Poker.rankCountIn cards r2)))

/-- Spec-side: the hand contains a flush. -/
def specHasFlush (cards : List Card) : Bool :=
  Poker.isFlush cards

/-- Spec-side: the hand contains a straight (ace-low wheel included). -/
def specHasStraight (cards : List Card) : Bool :=
  (List.range 15).any (fun h =>
    decide (5 ≤ h) && (straightRanks h).all (fun r => hasRank cards r))

/-- Spec-side: the hand contains three of a kind. -/
def specHasTrips (cards : List Card) : Bool :=
  (List.range 15).any (fun r => decide (3 ≤ Poker.rankCountIn cards r))

/-- Spec-side: the hand contains two pairs of different ranks. -/
def specHasTwoPair (cards : List Card) : Bool :=
  (List.range 15).any (fun r1 =>
    (List.range 15).any (fun r2 =>
      decide (r1 ≠ r2) && decide (2 ≤ Poker.rankCountIn cards r1) &&
        decide (2 ≤ Poker.rankCountIn cards r2)))

/-- Spec-side: the hand contains a pair. -/
def specHasPair (cards : List Card) : Bool :=
  (List.range 15).any (fun r => decide (2 ≤ Poker.rankCountIn cards r))

/-- Spec-side standard category of a hand, 8 (straight flush) down to 0 (high
card), following the spec's ranking straight flush > four-of-a-kind > full
house > flush > straight > three-of-a-kind > two pair > one pair > high card. -/
def specCategory (cards : List Card) : Nat :=
  if specHasStraightFlush cards then 8
  else if specHasQuads cards then 7
  else if specHasFullHouse cards then 6
  else if specHasFlush cards then 5
  else if specHasStraight cards then 4
  else if specHasTrips cards then 3
  else if specHasTwoPair cards then 2
  else if specHasPair cards then 1
  else 0

/-- Spec-side set of actions legally available to the bot in a betting state:
fold and all-in are always available, check only when no bet is pending, call
and raise when one is. -/
def specLegalBotActions (currentBet botBet : Int) : List Poker.Action :=
  if currentBet > botBet then
    [Poker.Action.fold, Poker.Action.call, Poker.Action.raise, Poker.Action.allin]
  else [Poker.Action.fold, Poker.Action.check, Poker.Action.raise, Poker.Action.allin]

end PokerSpec

/-- A seven-card hand that is a standard full house (three fives and three
sixes) which `evaluateHand` classifies as mere three of a kind: its `trips`
list is `[5, 6]` and its `pairs` list is empty, so the full-house branch is
skipped. -/
def fullHouseHand : List Card :=
  [⟨5, Suit.hearts⟩, ⟨5, Suit.diamonds⟩, ⟨5, Suit.clubs⟩,
   ⟨6, Suit.hearts⟩, ⟨6, Suit.diamonds⟩, ⟨6, Suit.clubs⟩, ⟨2, Suit.spades⟩]

/-- A seven-card heart flush with no pair, straight or better. -/
def flushHand : List Card :=
  [⟨2, Suit.hearts⟩, ⟨4, Suit.hearts⟩, ⟨6, Suit.hearts⟩, ⟨9, Suit.hearts⟩,
   ⟨11, Suit.hearts⟩, ⟨13, Suit.hearts⟩, ⟨14, Suit.hearts⟩]

/-- A fixed board paired in queens, plus ace-ace hole cards: two pair, aces up. -/
def acesTwoPairHand : List Card :=
  [⟨14, Suit.spades⟩, ⟨14, Suit.diamonds⟩, ⟨12, Suit.hearts⟩, ⟨12, Suit.diamonds⟩,
   ⟨7, Suit.clubs⟩, ⟨4, Suit.spades⟩, ⟨2, Suit.hearts⟩]

/-- The same board with king-king hole cards: two pair, kings up. -/
def kingsTwoPairHand : List Card :=
  [⟨13, Suit.spades⟩, ⟨13, Suit.diamonds⟩, ⟨12, Suit.hearts⟩, ⟨12, Suit.diamonds⟩,
   ⟨7, Suit.clubs⟩, ⟨4, Suit.spades⟩, ⟨2, Suit.hearts⟩]

/-- A concrete reachable-looking table state used to instantiate theorems. -/
def baseState : Poker.PokerState :=
  { deck := [⟨3, Suit.clubs⟩, ⟨8, Suit.diamonds⟩, ⟨10, Suit.hearts⟩, ⟨6, Suit.spades⟩,
             ⟨9, Suit.clubs⟩],
    playerHand := [⟨14, Suit.spades⟩, ⟨13, Suit.spades⟩],
    botHand := [⟨7, Suit.hearts⟩, ⟨2, Suit.diamonds⟩],
    communityCards := [],
    stage := Poker.PokerStage.preflop,
    pot := 30,
    playerChips := 990,
    botChips := 980,
    currentBet := 20,
    playerBet := 10,
    botBet := 20,
    isPlayerTurn := true,
    gameOver := none,
    showCards := false,
    actionLog := [],
    creatingGame := false,
    modeBot := true,
    onchainGameId := some "game-1" }

/-- A showdown state in which the player holds the winning two pair. -/
def playerWinsState : Poker.PokerState :=
  { baseState with
    playerHand := [⟨14, Suit.spades⟩, ⟨14, Suit.diamonds⟩],
    botHand := [⟨13, Suit.spades⟩, ⟨13, Suit.diamonds⟩],
    communityCards := [⟨12, Suit.hearts⟩, ⟨12, Suit.diamonds⟩, ⟨7, Suit.clubs⟩,
                       ⟨4, Suit.spades⟩, ⟨2, Suit.hearts⟩],
    stage := Poker.PokerStage.showdown,
    pot := 100,
    playerBet := 0, botBet := 0, currentBet := 0 }

/-- The mirror state in which the bot holds the winning two pair. -/
def botWinsState : Poker.PokerState :=
  { playerWinsState with
    playerHand := [⟨13, Suit.spades⟩, ⟨13, Suit.diamonds⟩],
    botHand := [⟨14, Suit.spades⟩, ⟨14, Suit.diamonds⟩] }

/-- A showdown state with equal scores (both sides play the board-high ace)
and an odd pot of 31. -/
def tiedState : Poker.PokerState :=
  { baseState with
    playerHand := [⟨14, Suit.spades⟩, ⟨13, Suit.spades⟩],
    botHand := [⟨14, Suit.diamonds⟩, ⟨13, Suit.diamonds⟩],
    communityCards := [⟨2, Suit.clubs⟩, ⟨5, Suit.diamonds⟩, ⟨9, Suit.spades⟩,
                       ⟨11, Suit.clubs⟩, ⟨3, Suit.hearts⟩],
    stage := Poker.PokerStage.showdown,
    pot := 31,
    playerChips := 500,
    botChips := 469,
    playerBet := 0, botBet := 0, currentBet := 0 }

/-- A small concrete remaining deck for the dealer examples. -/
def dealerDeck : List Card := [⟨2, Suit.hearts⟩, ⟨3, Suit.hearts⟩]

/-- The natural two-card 21 of the C7 failing input. -/
def naturalHand : List Card := [⟨14, Suit.spades⟩, ⟨13, Suit.spades⟩]

/-- The dealer's hard 17 of the C7 failing input. -/
def dealer17Hand : List Card := [⟨9, Suit.hearts⟩, ⟨8, Suit.hearts⟩]

/-- A copy of the concrete state with a cleared pot field, as on the very
first hand. -/
def zeroPotState : Poker.PokerState := { baseState with pot := 0 }

lemma mem_ranksWithCount_le (cards : List Card) (n : Nat) :
    ∀ r ∈ Poker.ranksWithCount cards n, r ≤ 14 := by
  intro r hr
  have hmem := (List.mem_filter.mp hr).1
  have := List.mem_range.mp hmem
  omega

lemma headD_le_of_all (l : List Nat) (h : ∀ r ∈ l, r ≤ 14) : l.headD 0 ≤ 14 := by
  cases l with
  | nil => simp
  | cons a t => exact h a (by simp)

lemma foldr_max_le_of_all (l : List Nat) (h : ∀ r ∈ l, r ≤ 14) :
    l.foldr max 0 ≤ 14 := by
  induction l with
  | nil => simp
  | cons a t ih =>
    simp only [List.foldr]
    have ha := h a (by simp)
    have ht := ih (fun r hr => h r (by simp [hr]))
    omega

lemma maxRank_le (cards : List Card) (h : ∀ c ∈ cards, c.rank ≤ 14) :
    Poker.maxRank cards ≤ 14 := by
  unfold Poker.maxRank
  apply foldr_max_le_of_all
  intro r hr
  obtain ⟨c, hc, rfl⟩ := List.mem_map.mp hr
  exact h c hc

lemma evaluateHand_ge (cards : List Card) :
    100 * Poker.codeCategory cards ≤ Poker.evaluateHand cards := by
  unfold Poker.evaluateHand Poker.codeCategory
  split_ifs <;> omega

lemma evaluateHand_le (cards : List Card) (h : ∀ c ∈ cards, c.rank ≤ 14) :
    Poker.evaluateHand cards ≤ 100 * Poker.codeCategory cards + 14 := by
  have hmax := maxRank_le cards h
  have hq := headD_le_of_all _ (mem_ranksWithCount_le cards 4)
  have ht := headD_le_of_all _ (mem_ranksWithCount_le cards 3)
  have hp := headD_le_of_all _ (mem_ranksWithCount_le cards 2)
  have hpm := foldr_max_le_of_all _ (mem_ranksWithCount_le cards 2)
  unfold Poker.evaluateHand Poker.codeCategory
  unfold Poker.pokerQuads Poker.pokerTrips Poker.pokerPairs at *
  split_ifs <;> omega

/-- C1: a player poker action in a bot-mode session with an on-chain game id
submits the action remotely fire-and-forget: the resulting local state is
exactly the locally applied `handleAction` state whether the submission
promise resolves or rejects — the failure path reverts nothing and touches no
local game state (pot, bets, chips, stage, turn included) — and a rejected
submission only appends a console log line. -/
theorem C1_submit_failure_only_logged (s : Poker.PokerState) (a : Poker.Action)
    (amount : Option Int) (raiseAmount : Int) (console : List String)
    (hid : s.onchainGameId.isSome) (hmode : s.modeBot = true) :
    (Poker.handleActionSubmit s a amount raiseAmount false console).1 =
      Poker.handleAction s a amount raiseAmount ∧
    (Poker.handleActionSubmit s a amount raiseAmount false console).1 =
      (Poker.handleActionSubmit s a amount raiseAmount true console).1 ∧
    (¬(¬s.isPlayerTurn ∨ s.gameOver.isSome ∨ s.creatingGame) →
      (Poker.handleActionSubmit s a amount raiseAmount false console).2 =
        console ++ [Poker.pokerSubmitFailureLog]) := by
  unfold Poker.handleActionSubmit
  by_cases hguard : (¬s.isPlayerTurn ∨ s.gameOver.isSome ∨ s.creatingGame)
  · rw [if_pos hguard, if_pos hguard]
    refine ⟨?_, rfl, fun hg => absurd hguard hg⟩
    unfold Poker.handleAction
    rw [if_pos hguard]
  · have hsub : s.onchainGameId.isSome = true ∧ s.modeBot = true := ⟨hid, hmode⟩
    rw [if_neg hguard, if_neg hguard, if_pos hsub, if_pos hsub]
    exact ⟨rfl, rfl, fun _ => by simp⟩

/-- Witness for C1 at a concrete state: the failure run equals the local
application and logs one console line. -/
theorem C1_witness :
    (Poker.handleActionSubmit baseState Poker.Action.call none 20 false []).1 =
      Poker.handleAction baseState Poker.Action.call none 20 ∧
    (Poker.handleActionSubmit baseState Poker.Action.call none 20 false []).1 =
      (Poker.handleActionSubmit baseState Poker.Action.call none 20 true []).1 ∧
    (¬(¬baseState.isPlayerTurn ∨ baseState.gameOver.isSome ∨ baseState.creatingGame) →
      (Poker.handleActionSubmit baseState Poker.Action.call none 20 false []).2 =
        [] ++ [Poker.pokerSubmitFailureLog]) :=
  C1_submit_failure_only_logged baseState Poker.Action.call none 20 []
    (by decide) (by decide)

/-- C2: an illegal local poker action is rejected before any state mutation
and is a no-op: a check against a pending bet, and a raise whose total
exceeds the player's chips, both return the state completely unchanged (all
fields, in particular pot, bets, chips, stage and the turn flag) and trigger
no further step. -/
theorem C2_illegal_action_noop (s : Poker.PokerState) (amount : Option Int)
    (raiseAmount : Int) :
    (s.currentBet > s.playerBet →
      Poker.handleAction s Poker.Action.check amount raiseAmount =
        (s, Poker.Next.done)) ∧
    (s.currentBet - s.playerBet + Poker.jsOrAmount amount raiseAmount >
        s.playerChips →
      Poker.handleAction s Poker.Action.raise amount raiseAmount =
        (s, Poker.Next.done)) := by
  constructor
  · intro hcheck
    unfold Poker.handleAction
    by_cases hguard : (¬s.isPlayerTurn ∨ s.gameOver.isSome ∨ s.creatingGame)
    · rw [if_pos hguard]
    · rw [if_neg hguard]
      dsimp only
      rw [if_pos hcheck]
  · intro hraise
    unfold Poker.handleAction
    by_cases hguard : (¬s.isPlayerTurn ∨ s.gameOver.isSome ∨ s.creatingGame)
    · rw [if_pos hguard]
    · rw [if_neg hguard]
      dsimp only
      rw [if_pos hraise]

/-- Witness for C2: a concrete state with a pending bet where check and an
oversized raise are both no-ops. -/
theorem C2_witness :
    Poker.handleAction baseState Poker.Action.check none 20 =
      (baseState, Poker.Next.done) ∧
    Poker.handleAction baseState Poker.Action.raise (some 5000) 20 =
      (baseState, Poker.Next.done) :=
  ⟨(C2_illegal_action_noop baseState none 20).1 (by decide),
   (C2_illegal_action_noop baseState (some 5000) 20).2 (by decide)⟩

/-- C3 counterexample: the claim's standard category ranking fails on the
code.  `fullHouseHand` (fives and sixes, a standard full house, category 6) is
classified by `evaluateHand` as mere three of a kind because its `pairs` list
is empty, and scores 305, strictly below the 514 of `flushHand` (a standard
flush, category 5). -/
theorem C3_counterexample :
    PokerSpec.specCategory flushHand < PokerSpec.specCategory fullHouseHand ∧
    Poker.evaluateHand fullHouseHand < Poker.evaluateHand flushHand := by decide

/-- C3 (amended): `evaluateHand` ranks hands by the categories its simplified
tests detect (its branch chain, `codeCategory`): for hands whose ranks are
valid (at most 14), a strictly higher detected category yields a strictly
higher score; two pair with aces outscores two pair with kings on the same
board; and `determineWinner` pays the whole pot to the strictly
higher-scoring side, leaving the other stack unchanged. -/
theorem C3_detected_category_monotonicity :
    (∀ h1 h2 : List Card, (∀ c ∈ h1, c.rank ≤ 14) → (∀ c ∈ h2, c.rank ≤ 14) →
      Poker.codeCategory h2 < Poker.codeCategory h1 →
      Poker.evaluateHand h2 < Poker.evaluateHand h1) ∧
    Poker.evaluateHand kingsTwoPairHand < Poker.evaluateHand acesTwoPairHand ∧
    (∀ s : Poker.PokerState,
      Poker.evaluateHand (s.botHand ++ s.communityCards) <
        Poker.evaluateHand (s.playerHand ++ s.communityCards) →
      (Poker.determineWinner s).playerChips = s.playerChips + s.pot ∧
        (Poker.determineWinner s).botChips = s.botChips) ∧
    (∀ s : Poker.PokerState,
      Poker.evaluateHand (s.playerHand ++ s.communityCards) <
        Poker.evaluateHand (s.botHand ++ s.communityCards) →
      (Poker.determineWinner s).botChips = s.botChips + s.pot ∧
        (Poker.determineWinner s).playerChips = s.playerChips) := by
  refine ⟨?_, by decide, ?_, ?_⟩
  · intro h1 h2 hv1 hv2 hcat
    have hle := evaluateHand_le h2 hv2
    have hge := evaluateHand_ge h1
    omega
  · intro s h
    unfold Poker.determineWinner
    rw [if_pos h]
    exact ⟨rfl, rfl⟩
  · intro s h
    have hnot : ¬ (Poker.evaluateHand (s.botHand ++ s.communityCards) <
        Poker.evaluateHand (s.playerHand ++ s.communityCards)) := by omega
    unfold Poker.determineWinner
    rw [if_neg hnot, if_pos h]
    exact ⟨rfl, rfl⟩

/-- Witness for C3's amended theorem at concrete inputs: the detected-flush
hand outscores the detected-trips hand, and the winning side of a concrete
showdown collects the pot. -/
theorem C3_witness :
    Poker.evaluateHand fullHouseHand < Poker.evaluateHand flushHand ∧
    (Poker.determineWinner playerWinsState).playerChips =
      playerWinsState.playerChips + playerWinsState.pot ∧
    (Poker.determineWinner botWinsState).botChips =
      botWinsState.botChips + botWinsState.pot :=
  ⟨C3_detected_category_monotonicity.1 flushHand fullHouseHand
      (by decide) (by decide) (by decide),
   (C3_detected_category_monotonicity.2.2.1 playerWinsState (by decide)).1,
   (C3_detected_category_monotonicity.2.2.2 botWinsState (by decide)).1⟩

/-- C4 counterexample: on a tied showdown with the odd pot 31, each side is
credited only `Math.floor(31 / 2) = 15`: the two stacks rise by 30 in total,
so the remainder chip is assigned to neither player and is lost, contradicting
the claim that the remainder goes to the acting player and no chips are lost. -/
theorem C4_counterexample :
    Poker.evaluateHand (tiedState.playerHand ++ tiedState.communityCards) =
      Poker.evaluateHand (tiedState.botHand ++ tiedState.communityCards) ∧
    tiedState.pot = 31 ∧
    (Poker.determineWinner tiedState).playerChips =
      tiedState.playerChips + 15 ∧
    (Poker.determineWinner tiedState).botChips = tiedState.botChips + 15 ∧
    ¬((Poker.determineWinner tiedState).playerChips +
        (Poker.determineWinner tiedState).botChips =
      tiedState.playerChips + tiedState.botChips + tiedState.pot) := by decide

/-- C4 (amended): on equal showdown scores each player's chips increase by
exactly `floor(pot / 2)`; the odd remainder is assigned to neither player (so
an odd pot loses one chip in the split), and the hand ends as a tie. -/
theorem C4_split_pot (s : Poker.PokerState)
    (h : Poker.evaluateHand (s.playerHand ++ s.communityCards) =
      Poker.evaluateHand (s.botHand ++ s.communityCards)) :
    (Poker.determineWinner s).playerChips = s.playerChips + Int.fdiv s.pot 2 ∧
    (Poker.determineWinner s).botChips = s.botChips + Int.fdiv s.pot 2 ∧
    (Poker.determineWinner s).gameOver = some ("Tie", "Equal hands") := by
  have h1 : ¬ (Poker.evaluateHand (s.botHand ++ s.communityCards) <
      Poker.evaluateHand (s.playerHand ++ s.communityCards)) := by omega
  have h2 : ¬ (Poker.evaluateHand (s.playerHand ++ s.communityCards) <
      Poker.evaluateHand (s.botHand ++ s.communityCards)) := by omega
  unfold Poker.determineWinner
  rw [if_neg h1, if_neg h2]
  exact ⟨rfl, rfl, rfl⟩

/-- Witness for C4's amended theorem at the concrete tied state. -/
theorem C4_witness :
    (Poker.determineWinner tiedState).playerChips =
      tiedState.playerChips + Int.fdiv tiedState.pot 2 ∧
    (Poker.determineWinner tiedState).botChips =
      tiedState.botChips + Int.fdiv tiedState.pot 2 ∧
    (Poker.determineWinner tiedState).gameOver = some ("Tie", "Equal hands") :=
  C4_split_pot tiedState (by decide)

lemma reduceAces_spec (a v : Nat) :
    (Blackjack.reduceAces v a).1 + 10 * (a - (Blackjack.reduceAces v a).2) = v ∧
    (Blackjack.reduceAces v a).2 ≤ a ∧
    ((Blackjack.reduceAces v a).2 < a → 21 < (Blackjack.reduceAces v a).1 + 10) ∧
    (21 < (Blackjack.reduceAces v a).1 → (Blackjack.reduceAces v a).2 = 0) := by
  induction a generalizing v with
  | zero =>
    simp [Blackjack.reduceAces]
  | succ n ih =>
    have hdef : Blackjack.reduceAces v (n + 1) =
        if 21 < v then Blackjack.reduceAces (v - 10) n else (v, n + 1) := rfl
    rw [hdef]
    by_cases h : 21 < v
    · rw [if_pos h]
      obtain ⟨h1, h2, h3, h4⟩ := ih (v - 10)
      refine ⟨by omega, by omega, ?_, h4⟩
      intro hlt
      by_cases hr : (Blackjack.reduceAces (v - 10) n).2 < n
      · exact h3 hr
      · omega
    · rw [if_neg h]
      exact ⟨by omega, Nat.le_refl _, by omega, by omega⟩

/-- C5: `calculateHandValue` counts each ace as 11 and reduces aces to 1 one
at a time only while the total exceeds 21 (so the final value differs from
the all-aces-high sum by `10 * k` for a reduction count `k` that is never
larger than needed, and all aces are reduced before a bust is reported); the
hand is soft exactly while an unreduced ace remains and the total is at most
21.  In particular `[Ace, King]` evaluates to 21 and, having exactly two
cards, is flagged as natural blackjack, and `[Ace, 6, 8]` evaluates to 15,
not 25. -/
theorem C5_hand_value_aces :
    (∀ hand : List Card, ∃ k,
      k ≤ Blackjack.countAces hand ∧
      (Blackjack.calculateHandValue hand).value + 10 * k = Blackjack.baseValue hand ∧
      (0 < k → 21 < (Blackjack.calculateHandValue hand).value + 10) ∧
      ((Blackjack.calculateHandValue hand).value ≤ 21 ∨
        k = Blackjack.countAces hand) ∧
      ((Blackjack.calculateHandValue hand).soft = true ↔
        k < Blackjack.countAces hand ∧ (Blackjack.calculateHandValue hand).value ≤ 21)) ∧
    Blackjack.calculateHandValue [⟨14, Suit.spades⟩, ⟨13, Suit.spades⟩] = ⟨21, true⟩ ∧
    Blackjack.isNaturalBlackjack [⟨14, Suit.spades⟩, ⟨13, Suit.spades⟩] = true ∧
    Blackjack.calculateHandValue [⟨14, Suit.spades⟩, ⟨6, Suit.spades⟩, ⟨8, Suit.spades⟩] =
      ⟨15, false⟩ := by
  refine ⟨?_, by decide, by decide, by decide⟩
  intro hand
  have hval : (Blackjack.calculateHandValue hand).value =
      (Blackjack.reduceAces (Blackjack.baseValue hand) (Blackjack.countAces hand)).1 := rfl
  have hsoft : (Blackjack.calculateHandValue hand).soft =
      decide (0 < (Blackjack.reduceAces (Blackjack.baseValue hand)
          (Blackjack.countAces hand)).2 ∧
        (Blackjack.reduceAces (Blackjack.baseValue hand)
          (Blackjack.countAces hand)).1 ≤ 21) := rfl
  obtain ⟨h1, h2, h3, h4⟩ :=
    reduceAces_spec (Blackjack.countAces hand) (Blackjack.baseValue hand)
  refine ⟨Blackjack.countAces hand -
      (Blackjack.reduceAces (Blackjack.baseValue hand) (Blackjack.countAces hand)).2,
    by omega, ?_, ?_, ?_, ?_⟩
  · rw [hval]; exact h1
  · intro hk
    rw [hval]
    exact h3 (by omega)
  · rw [hval]
    by_cases hv21 :
      (Blackjack.reduceAces (Blackjack.baseValue hand) (Blackjack.countAces hand)).1 ≤ 21
    · exact Or.inl hv21
    · exact Or.inr (by have := h4 (by omega); omega)
  · rw [hval, hsoft]
    simp only [decide_eq_true_eq]
    omega

/-- Witness for C5 at the concrete hand `[Ace, 6, 8]`. -/
theorem C5_witness : ∃ k,
    k ≤ Blackjack.countAces
      [⟨14, Suit.spades⟩, ⟨6, Suit.spades⟩, ⟨8, Suit.spades⟩] ∧
    (Blackjack.calculateHandValue
        [⟨14, Suit.spades⟩, ⟨6, Suit.spades⟩, ⟨8, Suit.spades⟩]).value + 10 * k =
      Blackjack.baseValue [⟨14, Suit.spades⟩, ⟨6, Suit.spades⟩, ⟨8, Suit.spades⟩] ∧
    (0 < k → 21 < (Blackjack.calculateHandValue
        [⟨14, Suit.spades⟩, ⟨6, Suit.spades⟩, ⟨8, Suit.spades⟩]).value + 10) ∧
    ((Blackjack.calculateHandValue
        [⟨14, Suit.spades⟩, ⟨6, Suit.spades⟩, ⟨8, Suit.spades⟩]).value ≤ 21 ∨
      k = Blackjack.countAces [⟨14, Suit.spades⟩, ⟨6, Suit.spades⟩, ⟨8, Suit.spades⟩]) ∧
    ((Blackjack.calculateHandValue
        [⟨14, Suit.spades⟩, ⟨6, Suit.spades⟩, ⟨8, Suit.spades⟩]).soft = true ↔
      k < Blackjack.countAces [⟨14, Suit.spades⟩, ⟨6, Suit.spades⟩, ⟨8, Suit.spades⟩] ∧
      (Blackjack.calculateHandValue
        [⟨14, Suit.spades⟩, ⟨6, Suit.spades⟩, ⟨8, Suit.spades⟩]).value ≤ 21) :=
  C5_hand_value_aces.1 [⟨14, Suit.spades⟩, ⟨6, Suit.spades⟩, ⟨8, Suit.spades⟩]

/-- C6 counterexample: the dealer hand `[Ace, 6]` is a soft 17 (value 17,
soft flag set), the deck is non-empty, yet `playDealer` draws no card: the
dealer loop tests only `value < 17` and therefore stands on soft 17,
contradicting the claim that a soft 17 is drawn. -/
theorem C6_counterexample :
    Blackjack.calculateHandValue [⟨14, Suit.spades⟩, ⟨6, Suit.spades⟩] = ⟨17, true⟩ ∧
    dealerDeck ≠ [] ∧
    Blackjack.playDealer [⟨14, Suit.spades⟩, ⟨6, Suit.spades⟩] dealerDeck =
      ([⟨14, Suit.spades⟩, ⟨6, Suit.spades⟩], dealerDeck) := by decide

lemma playDealerDraw_stops (fuel : Nat) :
    ∀ hand deckRem : List Card, fuel = deckRem.length →
      17 ≤ (Blackjack.calculateHandValue
          (Blackjack.playDealerDraw fuel hand deckRem).1).value ∨
        (Blackjack.playDealerDraw fuel hand deckRem).2 = [] := by
  induction fuel with
  | zero =>
    intro hand deckRem hf
    right
    have : deckRem = [] := List.length_eq_zero.mp hf.symm
    simp [Blackjack.playDealerDraw, this]
  | succ n ih =>
    intro hand deckRem hf
    have hdef : Blackjack.playDealerDraw (n + 1) hand deckRem =
        if (Blackjack.calculateHandValue hand).value < 17 then
          Blackjack.playDealerDraw n (hand ++ [(popCard deckRem).1]) (popCard deckRem).2
        else (hand, deckRem) := rfl
    rw [hdef]
    by_cases h : (Blackjack.calculateHandValue hand).value < 17
    · rw [if_pos h]
      apply ih
      simp only [popCard, List.length_dropLast]
      omega
    · rw [if_neg h]
      left
      dsimp only
      omega

/-- C6 (amended): the dealer acts only after all player seats have resolved
(`moveToNextPlayer` reaches the dealer seat 3 exactly when the index has
passed the last bot seat), and `playDealer` draws while the hand value is
strictly below 17 and stops at *any* 17 or more — in particular it stands on
soft 17 rather than drawing it — or when the deck is exhausted. -/
theorem C6_dealer_stands_on_17 :
    (∀ hand deckRem : List Card,
      (17 ≤ (Blackjack.calculateHandValue hand).value →
        Blackjack.playDealer hand deckRem = (hand, deckRem)) ∧
      (17 ≤ (Blackjack.calculateHandValue
          (Blackjack.playDealer hand deckRem).1).value ∨
        (Blackjack.playDealer hand deckRem).2 = [])) ∧
    (∀ i : Int, Blackjack.moveToNextPlayer i = 3 ↔ 2 ≤ i) := by
  constructor
  · intro hand deckRem
    constructor
    · intro hge
      unfold Blackjack.playDealer
      cases hn : deckRem.length with
      | zero => rfl
      | succ n =>
        have hdef : Blackjack.playDealerDraw (n + 1) hand deckRem =
            if (Blackjack.calculateHandValue hand).value < 17 then
              Blackjack.playDealerDraw n (hand ++ [(popCard deckRem).1])
                (popCard deckRem).2
            else (hand, deckRem) := rfl
        rw [hdef, if_neg (by omega)]
    · exact playDealerDraw_stops deckRem.length hand deckRem rfl
  · intro i
    unfold Blackjack.moveToNextPlayer
    split_ifs with h <;> constructor <;> intro hi <;> omega

/-- Witness for C6's amended theorem: a hard 18 is not drawn, and seat 2
hands over to the dealer seat. -/
theorem C6_witness :
    Blackjack.playDealer [⟨10, Suit.clubs⟩, ⟨8, Suit.diamonds⟩] dealerDeck =
      ([⟨10, Suit.clubs⟩, ⟨8, Suit.diamonds⟩], dealerDeck) ∧
    Blackjack.moveToNextPlayer 2 = 3 :=
  ⟨(C6_dealer_stands_on_17.1 [⟨10, Suit.clubs⟩, ⟨8, Suit.diamonds⟩] dealerDeck).1
      (by decide),
   (C6_dealer_stands_on_17.2 2).mpr (by decide)⟩

/-- C7: evaluation of the code at the failing input (bet 100, chips 1000, the
player dealt a natural `[A, K]`, the dealer `[9, 8]`).  The natural is
detected before the hit/stand loop (`startIndex` skips the human turn) and
`startNewGame` already credits `bet * 2.5`, leaving 1150 chips; but
`calculateResults` then credits the same blackjack *again* with
`bet + floor(bet * 2.5)`, ending the round at 1500 chips instead of the 1150
a single natural payout would produce.  The round thus reflects two natural
payouts, contradicting the claim (and spec), which the rest of the code
supports: every other outcome is paid exactly once, in `calculateResults`. -/
theorem C7_double_payout_eval :
    Blackjack.isNaturalBlackjack naturalHand = true ∧
    Blackjack.startIndex naturalHand = 0 ∧
    Blackjack.dealSettleChips 1000 100 naturalHand dealer17Hand = 1150 ∧
    Blackjack.playDealer dealer17Hand dealerDeck = (dealer17Hand, dealerDeck) ∧
    Blackjack.resultsChips (Blackjack.dealSettleChips 1000 100 naturalHand dealer17Hand)
      100 naturalHand dealer17Hand = 1500 ∧
    (1500 : ℚ) ≠ 1150 := by
  have hp : (Blackjack.calculateHandValue naturalHand).value = 21 := by decide
  have hd : (Blackjack.calculateHandValue dealer17Hand).value = 17 := by decide
  have hlen : naturalHand.length = 2 := by decide
  have hdeal : Blackjack.dealSettleChips 1000 100 naturalHand dealer17Hand = 1150 := by
    unfold Blackjack.dealSettleChips
    rw [hp, hd]
    norm_num
  refine ⟨by decide, by decide, hdeal, by decide, ?_, by norm_num⟩
  rw [hdeal]
  unfold Blackjack.resultsChips
  rw [hp, hd, hlen]
  norm_num

/-- C8 counterexample: at `currentBet = 20`, `botBet = 10` the fallback for
an unrecognized (or missing) suggestion reply is the constant `call`; folding
is a legal action there, so a fallback drawn uniformly at random from the
legal actions could not be this constant function. -/
theorem C8_counterexample :
    Poker.botDecision (some "banana") 20 10 = Poker.Action.call ∧
    Poker.botDecision (some "try folding maybe") 20 10 = Poker.Action.call ∧
    Poker.botDecision none 20 10 = Poker.Action.call ∧
    Poker.Action.fold ∈ PokerSpec.specLegalBotActions 20 10 ∧
    Poker.Action.call ≠ Poker.Action.fold := by decide

/-- C8 (amended): the bot decision trims and lower-cases the reply and accepts
it only on an exact match with the five action words (a missing or blank
reply reads as `call`); an unrecognized reply falls back to the *fixed
heuristic* `call` if a bet is pending and `check` otherwise (not to a random
legal action); an accepted `check` with a bet pending is coerced to `call`;
and the network-error fallback performs a capped call that conserves chips,
returns the turn to the player, and surfaces no error (the game-over field is
untouched). -/
theorem C8_fallback_is_fixed_heuristic :
    (∀ (t : String) (cb bb : Int),
      ¬ Poker.validActionStrings.contains (Poker.parseBotReply (some t)) →
      Poker.botDecision (some t) cb bb =
        if cb > bb then Poker.Action.call else Poker.Action.check) ∧
    (∀ (reply : Option String) (cb bb : Int),
      Poker.validActionStrings.contains (Poker.parseBotReply reply) →
      Poker.botDecision reply cb bb =
        if Poker.parseBotReply reply = "check" ∧ cb > bb then Poker.Action.call
        else Poker.actionOfString (Poker.parseBotReply reply)) ∧
    (∀ s : Poker.PokerState,
      Poker.chipSum (Poker.botErrorFallback s) = Poker.chipSum s ∧
      (Poker.botErrorFallback s).gameOver = s.gameOver ∧
      (Poker.botErrorFallback s).isPlayerTurn = true) := by
  refine ⟨?_, ?_, ?_⟩
  · intro t cb bb hne
    unfold Poker.botDecision Poker.botValidated
    rw [if_neg hne]
    by_cases h : cb > bb
    · simp only [if_pos h]
      unfold Poker.botCheckCoerced
      rw [if_neg (fun hc => absurd hc.1 (by decide))]
      decide
    · simp only [if_neg h]
      unfold Poker.botCheckCoerced
      rw [if_neg (fun hc => absurd hc.2 h)]
      decide
  · intro reply cb bb hc
    unfold Poker.botDecision Poker.botValidated
    rw [if_pos hc]
    unfold Poker.botCheckCoerced
    by_cases hcc : Poker.parseBotReply reply = "check" ∧ cb > bb
    · simp only [if_pos hcc]
      decide
    · simp only [if_neg hcc]
  · intro s
    refine ⟨?_, rfl, rfl⟩
    unfold Poker.chipSum Poker.botErrorFallback
    dsimp only
    omega

/-- Witness for C8's amended theorem: an unrecognized reply with no pending
bet falls back to check, a shouted fold is accepted, and the error fallback
conserves chips at a concrete state. -/
theorem C8_witness :
    Poker.botDecision (some "gibberish") 30 30 =
      (if (30 : Int) > 30 then Poker.Action.call else Poker.Action.check) ∧
    Poker.botDecision (some " FOLD ") 20 10 =
      (if Poker.parseBotReply (some " FOLD ") = "check" ∧ (20 : Int) > 10 then
        Poker.Action.call
      else Poker.actionOfString (Poker.parseBotReply (some " FOLD "))) ∧
    Poker.chipSum (Poker.botErrorFallback baseState) = Poker.chipSum baseState :=
  ⟨C8_fallback_is_fixed_heuristic.1 "gibberish" 30 30 (by decide),
   C8_fallback_is_fixed_heuristic.2.1 (some " FOLD ") 20 10 (by decide),
   (C8_fallback_is_fixed_heuristic.2.2 baseState).1⟩

lemma determineWinner_frame (s : Poker.PokerState) :
    (Poker.determineWinner s).stage = s.stage ∧
    (Poker.determineWinner s).communityCards = s.communityCards ∧
    (Poker.determineWinner s).deck = s.deck ∧
    (Poker.determineWinner s).playerBet = s.playerBet ∧
    (Poker.determineWinner s).botBet = s.botBet ∧
    (Poker.determineWinner s).currentBet = s.currentBet ∧
    (Poker.determineWinner s).pot = s.pot := by
  unfold Poker.determineWinner Poker.endGame
  split_ifs <;> exact ⟨rfl, rfl, rfl, rfl, rfl, rfl, rfl⟩

/-- C9: streets progress linearly with no backward transition — every
`advanceStage` call moves `stage` to the next street (showdown is absorbing);
the three per-street bet counters are reset to 0; a non-river call leaves the
pot and both stacks unchanged; from the preflop three community cards are
dealt from the deck, from the flop and the turn exactly one; and from the
river the hand moves to showdown without dealing (community cards and deck
unchanged). -/
theorem C9_advance_stage :
    (∀ s : Poker.PokerState, (Poker.advanceStage s).stage = Poker.nextStage s.stage) ∧
    (∀ s : Poker.PokerState, (Poker.advanceStage s).playerBet = 0 ∧
      (Poker.advanceStage s).botBet = 0 ∧ (Poker.advanceStage s).currentBet = 0) ∧
    (∀ s : Poker.PokerState, s.stage ≠ Poker.PokerStage.river →
      (Poker.advanceStage s).pot = s.pot ∧
      (Poker.advanceStage s).playerChips = s.playerChips ∧
      (Poker.advanceStage s).botChips = s.botChips) ∧
    (∀ s : Poker.PokerState, s.stage = Poker.PokerStage.preflop → 3 ≤ s.deck.length →
      (Poker.advanceStage s).communityCards.length = 3 ∧
      (Poker.advanceStage s).deck.length = s.deck.length - 3) ∧
    (∀ s : Poker.PokerState, s.stage = Poker.PokerStage.flop → 1 ≤ s.deck.length →
      (Poker.advanceStage s).communityCards =
        s.communityCards ++ [(popCard s.deck).1] ∧
      (Poker.advanceStage s).deck.length = s.deck.length - 1) ∧
    (∀ s : Poker.PokerState, s.stage = Poker.PokerStage.turn → 1 ≤ s.deck.length →
      (Poker.advanceStage s).communityCards =
        s.communityCards ++ [(popCard s.deck).1] ∧
      (Poker.advanceStage s).deck.length = s.deck.length - 1) ∧
    (∀ s : Poker.PokerState, s.stage = Poker.PokerStage.river →
      (Poker.advanceStage s).stage = Poker.PokerStage.showdown ∧
      (Poker.advanceStage s).communityCards = s.communityCards ∧
      (Poker.advanceStage s).deck = s.deck) := by
  refine ⟨?_, ?_, ?_, ?_, ?_, ?_, ?_⟩
  · intro s
    cases hs : s.stage <;> (unfold Poker.advanceStage; rw [hs]; dsimp only)
    case preflop => rfl
    case flop => rfl
    case turn => rfl
    case river => exact (determineWinner_frame _).1
    case showdown => rfl
  · intro s
    cases hs : s.stage <;> (unfold Poker.advanceStage; rw [hs]; dsimp only)
    case preflop => exact ⟨rfl, rfl, rfl⟩
    case flop => exact ⟨rfl, rfl, rfl⟩
    case turn => exact ⟨rfl, rfl, rfl⟩
    case river =>
      obtain ⟨-, -, -, h4, h5, h6, -⟩ := determineWinner_frame
        { s with playerBet := 0, botBet := 0, currentBet := 0,
                 stage := Poker.PokerStage.showdown, showCards := true }
      exact ⟨h4, h5, h6⟩
    case showdown => exact ⟨rfl, rfl, rfl⟩
  · intro s hne
    cases hs : s.stage <;> (unfold Poker.advanceStage; rw [hs]; dsimp only)
    case preflop => exact ⟨rfl, rfl, rfl⟩
    case flop => exact ⟨rfl, rfl, rfl⟩
    case turn => exact ⟨rfl, rfl, rfl⟩
    case river => exact absurd hs hne
    case showdown => exact ⟨rfl, rfl, rfl⟩
  · intro s hstage hlen
    unfold Poker.advanceStage
    rw [hstage]
    dsimp only
    refine ⟨rfl, ?_⟩
    simp only [popCard, List.length_dropLast]
    omega
  · intro s hstage hlen
    unfold Poker.advanceStage
    rw [hstage]
    dsimp only
    refine ⟨rfl, ?_⟩
    simp only [popCard, List.length_dropLast]
  · intro s hstage hlen
    unfold Poker.advanceStage
    rw [hstage]
    dsimp only
    refine ⟨rfl, ?_⟩
    simp only [popCard, List.length_dropLast]
  · intro s hstage
    unfold Poker.advanceStage
    rw [hstage]
    dsimp only
    obtain ⟨h1, h2, h3, -, -, -, -⟩ := determineWinner_frame
      { s with playerBet := 0, botBet := 0, currentBet := 0,
               stage := Poker.PokerStage.showdown, showCards := true }
    exact ⟨h1, h2, h3⟩

/-- Witness for C9 at the concrete preflop state with a five-card deck. -/
theorem C9_witness :
    (Poker.advanceStage baseState).stage = Poker.nextStage baseState.stage ∧
    (Poker.advanceStage baseState).communityCards.length = 3 ∧
    (Poker.advanceStage baseState).deck.length = baseState.deck.length - 3 ∧
    (Poker.advanceStage baseState).pot = baseState.pot :=
  ⟨C9_advance_stage.1 baseState,
   (C9_advance_stage.2.2.2.1 baseState rfl (by decide)).1,
   (C9_advance_stage.2.2.2.1 baseState rfl (by decide)).2,
   (C9_advance_stage.2.2.1 baseState (by decide)).1⟩

/-- C10 counterexample: `startNewHand` *sets* the pot to 30 instead of adding
the blinds, so starting a hand while the pot field still holds the previous
(already awarded) pot of 30 shrinks the tracked sum
`playerChips + botChips + pot` by 30: posting the blinds is not
sum-preserving at every reachable state. -/
theorem C10_counterexample :
    baseState.pot = 30 ∧
    Poker.chipSum (Poker.startNewHand baseState baseState.deck) =
      Poker.chipSum baseState - 30 ∧
    Poker.chipSum (Poker.startNewHand baseState baseState.deck) ≠
      Poker.chipSum baseState := by decide

lemma afterPlayerAction_fst (snap s : Poker.PokerState) (a : Poker.Action) :
    (Poker.afterPlayerAction snap s a).1 = { s with isPlayerTurn := false } := by
  unfold Poker.afterPlayerAction
  split_ifs <;> rfl

lemma afterBotAction_chipSum (snap s : Poker.PokerState) (a : Poker.Action) :
    Poker.chipSum (Poker.afterBotAction snap s a).1 = Poker.chipSum s := by
  unfold Poker.afterBotAction
  split_ifs <;> rfl

/-- C10 (amended): every betting action — player check/call/raise/all-in
(including the all-in-capped call), bot check/call/raise/all-in, and the
bot's error-fallback call — conserves `playerChips + botChips + pot`; posting
the blinds in `startNewHand` conserves it exactly when the pot field is 0
when the hand starts (it is overwritten to 30, not incremented), which holds
on the first hand but not after a finished hand left its awarded pot in the
field. -/
theorem C10_chip_conservation :
    (∀ (s : Poker.PokerState) (a : Poker.Action) (amount : Option Int) (ra : Int),
      a ≠ Poker.Action.fold →
      Poker.chipSum (Poker.handleAction s a amount ra).1 = Poker.chipSum s) ∧
    (∀ (s : Poker.PokerState) (a : Poker.Action), a ≠ Poker.Action.fold →
      Poker.chipSum (Poker.botExec s a).1 = Poker.chipSum s) ∧
    (∀ s : Poker.PokerState,
      Poker.chipSum (Poker.botErrorFallback s) = Poker.chipSum s) ∧
    (∀ (s : Poker.PokerState) (newDeck : List Card), s.pot = 0 →
      Poker.chipSum (Poker.startNewHand s newDeck) = Poker.chipSum s) := by
  refine ⟨?_, ?_, ?_, ?_⟩
  · intro s a amount ra ha
    unfold Poker.handleAction
    by_cases hguard : (¬s.isPlayerTurn ∨ s.gameOver.isSome ∨ s.creatingGame)
    · rw [if_pos hguard]
    · rw [if_neg hguard]
      cases a with
      | fold => exact absurd rfl ha
      | check =>
        dsimp only
        by_cases hc : s.currentBet > s.playerBet
        · rw [if_pos hc]
        · rw [if_neg hc, afterPlayerAction_fst]
          rfl
      | call =>
        dsimp only
        by_cases hc : s.currentBet - s.playerBet > s.playerChips
        · rw [if_pos hc, afterPlayerAction_fst]
          unfold Poker.chipSum
          dsimp only
          omega
        · rw [if_neg hc, afterPlayerAction_fst]
          unfold Poker.chipSum
          dsimp only
          omega
      | raise =>
        dsimp only
        by_cases hc : s.currentBet - s.playerBet + Poker.jsOrAmount amount ra >
            s.playerChips
        · rw [if_pos hc]
        · rw [if_neg hc, afterPlayerAction_fst]
          unfold Poker.chipSum
          dsimp only
          omega
      | allin =>
        dsimp only
        rw [afterPlayerAction_fst]
        unfold Poker.chipSum
        dsimp only
        omega
  · intro s a ha
    cases a with
    | fold => exact absurd rfl ha
    | check =>
      unfold Poker.botExec
      rw [afterBotAction_chipSum]
      rfl
    | call =>
      unfold Poker.botExec
      by_cases hc : s.currentBet - s.botBet ≥ s.botChips
      · rw [if_pos hc, afterBotAction_chipSum]
        unfold Poker.chipSum
        dsimp only
        omega
      · rw [if_neg hc, afterBotAction_chipSum]
        unfold Poker.chipSum
        dsimp only
        omega
    | raise =>
      unfold Poker.botExec
      rw [afterBotAction_chipSum]
      unfold Poker.chipSum
      dsimp only
      omega
    | allin =>
      unfold Poker.botExec
      rw [afterBotAction_chipSum]
      unfold Poker.chipSum
      dsimp only
      omega
  · intro s
    unfold Poker.chipSum Poker.botErrorFallback
    dsimp only
    omega
  · intro s newDeck hpot
    unfold Poker.chipSum Poker.startNewHand
    dsimp only
    omega

/-- Witness for C10 at concrete states: a player call, a bot raise, the error
fallback and a fresh-pot blind posting all conserve the chip sum. -/
theorem C10_witness :
    Poker.chipSum (Poker.handleAction baseState Poker.Action.call none 20).1 =
      Poker.chipSum baseState ∧
    Poker.chipSum (Poker.botExec baseState Poker.Action.raise).1 =
      Poker.chipSum baseState ∧
    Poker.chipSum (Poker.botErrorFallback baseState) = Poker.chipSum baseState ∧
    Poker.chipSum (Poker.startNewHand zeroPotState baseState.deck) =
      Poker.chipSum zeroPotState :=
  ⟨C10_chip_conservation.1 baseState Poker.Action.call none 20 (by decide),
   C10_chip_conservation.2.1 baseState Poker.Action.raise (by decide),
   C10_chip_conservation.2.2.1 baseState,
   C10_chip_conservation.2.2.2 zeroPotState baseState.deck rfl⟩
